import Mathlib

/-!
Verification development for the samoyed (Dire Wolf fork) receive-to-dispatch
pipeline: the KISS codec (`src/kiss_frame.c`), the APRS digipeater engine
(`src/digipeater.c`) and the dispatch-hub routing tail
(`src/direwolf.c`, `app_process_rec_packet`).

The AX.25 packet primitives (`ax25_pad.c`), the dedupe cache (`dedupe.c`) and
the transmit queue (`tq.c`) are not part of the provided sources; those are
modelled from the specification (spec sections 3, 4.4, 4.5, 4.7) and each such
definition carries a doc comment saying so.  Everything else is translated
directly from the C sources.
-/

namespace Samoyed

/-! ### KISS codec (`src/kiss_frame.c`) -/

/-- KISS frame delimiter byte, `#define FEND 0xC0` in `kiss_frame.h`. -/
def FEND : Nat := 0xC0

/-- KISS escape byte, `#define FESC 0xDB`. -/
def FESC : Nat := 0xDB

/-- Transposed FEND, `#define TFEND 0xDC`. -/
def TFEND : Nat := 0xDC

/-- Transposed FESC, `#define TFESC 0xDD`. -/
def TFESC : Nat := 0xDD

/-- Body of the encoding loop of `kiss_encapsulate` (kiss_frame.c:163-176):
each FEND byte becomes FESC TFEND, each FESC becomes FESC TFESC, any other
byte is copied unchanged. -/
def kiss_esc : List Nat → List Nat
  | [] => []
  | b :: t =>
    if b = FEND then FESC :: TFEND :: kiss_esc t
    else if b = FESC then FESC :: TFESC :: kiss_esc t
    else b :: kiss_esc t

/-- `kiss_encapsulate` (kiss_frame.c:156-181): FEND, escaped payload, FEND. -/
def kiss_encapsulate (inb : List Nat) : List Nat :=
  FEND :: kiss_esc inb ++ [FEND]

/-- The protocol errors that `kiss_unwrap` reports via `dw_printf`
(kiss_frame.c:220-261), in source order. -/
inductive KissErr where
  | tooShort
  | missingFend
  | midFend
  | badEscape
deriving DecidableEq, Repr

/-- The decode loop of `kiss_unwrap` (kiss_frame.c:243-270), carrying the
`escaped_mode` flag.  Output bytes are paired with the protocol errors the
loop logs: a FEND in the middle is logged (and, outside escaped mode, still
copied to the output); in escaped mode TFESC and TFEND map back to FESC and
FEND, and any other byte is logged as a protocol error and contributes no
output byte. -/
def kiss_unwrapLoop : List Nat → Bool → List Nat × List KissErr
  | [], _ => ([], [])
  | b :: rest, esc =>
    let fendErr : List KissErr := if b = FEND then [KissErr.midFend] else []
    if esc then
      if b = TFESC then
        let r := kiss_unwrapLoop rest false
        (FESC :: r.1, fendErr ++ r.2)
      else if b = TFEND then
        let r := kiss_unwrapLoop rest false
        (FEND :: r.1, fendErr ++ r.2)
      else
        let r := kiss_unwrapLoop rest false
        (r.1, fendErr ++ KissErr.badEscape :: r.2)
    else if b = FESC then
      let r := kiss_unwrapLoop rest true
      (r.1, fendErr ++ r.2)
    else
      let r := kiss_unwrapLoop rest false
      (b :: r.1, fendErr ++ r.2)

/-- `kiss_unwrap` (kiss_frame.c:211-274), instrumented with the list of
protocol errors it logs.  Inputs shorter than 2 bytes produce no output; a
trailing FEND is stripped (its absence is logged); a leading FEND is skipped;
the remainder goes through the escape-removal loop. -/
def kiss_unwrapE (inp : List Nat) : List Nat × List KissErr :=
  if inp.length < 2 then ([], [KissErr.tooShort])
  else
    let e0 : List KissErr := if inp.getLast? = some FEND then [] else [KissErr.missingFend]
    let body := if inp.getLast? = some FEND then inp.dropLast else inp
    let body2 := if inp.head? = some FEND then body.tail else body
    let r := kiss_unwrapLoop body2 false
    (r.1, e0 ++ r.2)

/-- The bytes returned by `kiss_unwrap` (the C function's output buffer). -/
def kiss_unwrap (inp : List Nat) : List Nat := (kiss_unwrapE inp).1

/-! ### AX.25 packet object

`ax25_pad.c` is not among the provided sources; the packet object is modelled
from the spec (section 3 "AX.25 address" / "Packet" and section 4.4), using
the position convention `DESTINATION=0`, `SOURCE=1`, `REPEATER_1..8 = 2..9`.
-/

/-- Modelled from the spec: an AX.25 address is a callsign with optional
SSID (0..15) plus the H ("has been repeated") bit (section 3). -/
structure Addr where
  base : String
  ssid : Nat
  h : Bool
deriving DecidableEq, Repr

/-- Modelled from the spec: the textual "CALL-SSID" form produced by
`ax25_get_addr_with_ssid`; an SSID of 0 is omitted. -/
def addrStr (a : Addr) : String :=
  if a.ssid = 0 then a.base else a.base ++ "-" ++ toString a.ssid

/-- Modelled from the spec: a packet is destination, source, an ordered
repeater list (at most 8), and the info field (section 3).  Control/PID play
no role in the digipeater engine and are omitted. -/
structure Packet where
  dest : Addr
  src : Addr
  repeaters : List Addr
  info : List Nat
deriving DecidableEq, Repr

/-- Replace the element at index `n`, leaving the list unchanged when out of
range. -/
def modifyIdx {α : Type} : List α → Nat → (α → α) → List α
  | [], _, _ => []
  | a :: t, 0, f => f a :: t
  | a :: t, n + 1, f => a :: modifyIdx t n f

/-- Insert an element at index `n`, leaving the list unchanged when `n` is
beyond the end. -/
def insIdx {α : Type} : List α → Nat → α → List α
  | l, 0, a => a :: l
  | [], _ + 1, _ => []
  | b :: t, n + 1, a => b :: insIdx t n a

/-- Repeater at frame position `pos` (`AX25_REPEATER_1 = 2`). -/
def repGet (p : Packet) (pos : Nat) : Addr :=
  p.repeaters.getD (pos - 2) ⟨"", 0, false⟩

/-- Modelled from the spec: `get_addr(packet, pos) → "CALL-SSID"`
(section 4.4), positions 0 = destination, 1 = source, 2.. = repeaters. -/
def ax25_get_addr_with_ssid (p : Packet) (pos : Nat) : String :=
  if pos = 0 then addrStr p.dest
  else if pos = 1 then addrStr p.src
  else addrStr (repGet p pos)

/-- Modelled from the spec: the SSID at frame position `pos`. -/
def ax25_get_ssid (p : Packet) (pos : Nat) : Nat :=
  if pos = 0 then p.dest.ssid
  else if pos = 1 then p.src.ssid
  else (repGet p pos).ssid

/-- Modelled from the spec: the H bit of the repeater at frame position
`pos`. -/
def ax25_get_h (p : Packet) (pos : Nat) : Bool :=
  (repGet p pos).h

/-- Modelled from the spec: `set_h(packet, pos, true)` on a repeater. -/
def ax25_set_h (p : Packet) (pos : Nat) : Packet :=
  { p with repeaters := modifyIdx p.repeaters (pos - 2) (fun a => { a with h := true }) }

/-- Modelled from the spec: `set_ssid(packet, pos, v)` on a repeater. -/
def ax25_set_ssid (p : Packet) (pos : Nat) (v : Nat) : Packet :=
  { p with repeaters := modifyIdx p.repeaters (pos - 2) (fun a => { a with ssid := v }) }

/-- Modelled from the spec: `set_addr(packet, pos, "CALL-SSID")` replaces the
callsign and SSID of the repeater at `pos`; the H bit is untouched (every
caller in `digipeat_match` sets it explicitly right after). -/
def ax25_set_addr (p : Packet) (pos : Nat) (ad : Addr) : Packet :=
  { p with
    repeaters := modifyIdx p.repeaters (pos - 2) (fun a => { a with base := ad.base, ssid := ad.ssid }) }

/-- Modelled from the spec: `insert_addr` shifts successors up and fails (is
a no-op) if it would exceed 10 addresses, i.e. 8 repeaters (section 4.4).
The new address starts with H = 0. -/
def ax25_insert_addr (p : Packet) (pos : Nat) (ad : Addr) : Packet :=
  if p.repeaters.length < 8 then
    { p with repeaters := insIdx p.repeaters (pos - 2) ⟨ad.base, ad.ssid, false⟩ }
  else p

/-- Modelled from the spec: `remove_addr` shifts successors down. -/
def ax25_remove_addr (p : Packet) (pos : Nat) : Packet :=
  { p with repeaters := p.repeaters.eraseIdx (pos - 2) }

/-- Modelled from the spec: number of addresses (destination + source +
repeaters). -/
def ax25_get_num_addr (p : Packet) : Nat := 2 + p.repeaters.length

/-- Modelled from the spec: number of repeaters. -/
def ax25_get_num_repeaters (p : Packet) : Nat := p.repeaters.length

/-- Modelled from the spec: `dup` is a deep copy; in the value model it is
the identity, and freshness is expressed by the input packet being threaded
through `digipeat_matchS` unchanged. -/
def ax25_dup (p : Packet) : Packet := p

/-- Helper for `ax25_get_first_not_repeated`, scanning the repeater list and
carrying the frame position of the head. -/
def firstNotRepeatedAux : List Addr → Nat → Option Nat
  | [], _ => none
  | a :: t, pos => if a.h = false then some pos else firstNotRepeatedAux t (pos + 1)

/-- Modelled from the spec: `first_not_repeated` = lowest-numbered repeater
with H = 0, as a frame position (2..9), or none (section 4.4). -/
def ax25_get_first_not_repeated (p : Packet) : Option Nat :=
  firstNotRepeatedAux p.repeaters 2

/-! ### Digipeater engine (`src/digipeater.c`) -/

/-- `enum preempt_e`: the pre-emptive digipeating policy (digipeater.h is
absent from the sources; the four values are those used by
`digipeat_match`). -/
inductive Preempt where
  | off
  | drop
  | mark
  | trace
deriving DecidableEq, Repr

/-- The per-`(from_chan, to_chan)` arguments of `digipeat_match`
(digipeater.c:297-298).  The compiled regexes `alias` and `wide` are modelled
as abstract string predicates (`regexec(...) == 0`); `pfilter` and
`dedupe_check` (both defined outside the provided sources) are likewise
abstract predicates on the packet.  `mycall_rec` is the string compared with
`strcmp`; `mycall_xmit` is kept in parsed form since it is only ever written
into an address field. -/
structure DigiEnv where
  mycall_rec : String
  mycall_xmit : Addr
  aliasP : String → Bool
  wideP : String → Bool
  preempt : Preempt
  atgp : String
  filt : Option (Packet → Bool)
  dedupe_check : Packet → Bool

/-- The filter stage (digipeater.c:310-315): packets pass when no filter is
configured or when `pfilter` returns 1. -/
def passFilter (env : DigiEnv) (pp : Packet) : Bool :=
  match env.filt with
  | none => true
  | some f => f pp

/-- Case-insensitive prefix test
`strncasecmp(repeater, atgp, strlen(atgp)) == 0` (digipeater.c:537). -/
def atgpMatches (atgp rep : String) : Bool :=
  (rep.toList.take atgp.toList.length).map Char.toLower = atgp.toList.map Char.toLower

/-- Fuel-indexed form of the pre-empt scan loop; the fuel counts the
remaining loop iterations (`ax25_get_num_addr pp - r2`), making the
recursion structural. -/
def preemptScanAux (env : DigiEnv) (pp : Packet) : Nat → Nat → Option Nat
  | 0, _ => none
  | fuel + 1, r2 =>
    if r2 < ax25_get_num_addr pp then
      if ax25_get_addr_with_ssid pp r2 = env.mycall_rec ∨
         env.aliasP (ax25_get_addr_with_ssid pp r2) = true then some r2
      else preemptScanAux env pp fuel (r2 + 1)
    else none

/-- The scan of the pre-empt stage (digipeater.c:453-462): the first frame
position `r2` (starting at `r+1`) whose address equals `mycall_rec` or
matches the alias pattern. -/
def preemptScan (env : DigiEnv) (pp : Packet) (r2 : Nat) : Option Nat :=
  preemptScanAux env pp (ax25_get_num_addr pp - r2) r2

/-- The pre-empt stage as guarded by `if (preempt != PREEMPT_OFF)`
(digipeater.c:450). -/
def preemptStage (env : DigiEnv) (pp : Packet) (r : Nat) : Option Nat :=
  if env.preempt ≠ Preempt.off then preemptScan env pp (r + 1) else none

/-- The `PREEMPT_DROP` path rewrite (digipeater.c:478-481):
`while (r2 > AX25_REPEATER_1) { ax25_remove_addr (result, r2-1); r2--; }`. -/
def dropLoop : Packet → Nat → Packet
  | p, 0 => p
  | p, k + 1 => if 2 < k + 1 then dropLoop (ax25_remove_addr p k) k else p

/-- The `PREEMPT_MARK` path rewrite (digipeater.c:489-493), entered with the
already-decremented `r2`:
`while (r2 >= AX25_REPEATER_1 && ax25_get_h(result,r2) == 0) { ax25_set_h (result, r2); r2--; }`. -/
def markLoop : Packet → Nat → Packet
  | p, 0 => p
  | p, k + 1 =>
    if 2 ≤ k + 1 ∧ ax25_get_h p (k + 1) = false then markLoop (ax25_set_h p (k + 1)) k else p

/-- The `PREEMPT_TRACE` (and switch-default) path rewrite
(digipeater.c:503-506):
`while (r2 > AX25_REPEATER_1 && ax25_get_h(result,r2-1) == 0) { ax25_remove_addr (result, r2-1); r2--; }`. -/
def traceLoop : Packet → Nat → Packet
  | p, 0 => p
  | p, k + 1 =>
    if 2 < k + 1 ∧ ax25_get_h p k = false then traceLoop (ax25_remove_addr p k) k else p

/-- The packet built by the pre-empt stage on a hit at position `r2`
(digipeater.c:463-520): duplicate, write `mycall_xmit` at `r2`, set H, then
rewrite the path per policy (the `switch` default is the TRACE behaviour). -/
def preemptBuild (env : DigiEnv) (pp : Packet) (r2 : Nat) : Packet :=
  let p1 := ax25_set_h (ax25_set_addr (ax25_dup pp) r2 env.mycall_xmit) r2
  match env.preempt with
  | Preempt.drop => dropLoop p1 r2
  | Preempt.mark => markLoop p1 (r2 - 1)
  | _ => traceLoop p1 r2

/-- The strip loop of the ATGP hack (digipeater.c:547-550):
`while (ax25_get_num_addr(result) >= 3 && ax25_get_h(result,AX25_REPEATER_1) == 1) { ax25_remove_addr (result, AX25_REPEATER_1); r--; }`,
returning the packet together with the adjusted pivot position `r`; the fuel
counts remaining removals and is initialised to the repeater count, which the
loop can never exhaust while its condition holds. -/
def atgpStripAux : Nat → Packet → Nat → Packet × Nat
  | 0, p, r => (p, r)
  | fuel + 1, p, r =>
    if 3 ≤ ax25_get_num_addr p ∧ ax25_get_h p 2 = true then
      atgpStripAux fuel (ax25_remove_addr p 2) (r - 1)
    else (p, r)

/-- The strip loop entry point; the fuel is the repeater count, an upper
bound on the number of removals. -/
def atgpStrip (p : Packet) (r : Nat) : Packet × Nat :=
  atgpStripAux p.repeaters.length p r

/-- The packet built by the ATGP special case (digipeater.c:539-562): strip
already-used leading repeaters, decrement the SSID at the (adjusted) pivot,
set its H bit if the SSID became 0, then insert `mycall_xmit` at REPEATER_1
and mark it used. -/
def atgpBuild (env : DigiEnv) (pp : Packet) (r ssid : Nat) : Packet :=
  let sr := atgpStrip (ax25_dup pp) r
  let s := ssid - 1
  let p2 := ax25_set_ssid sr.1 sr.2 s
  let p3 := if s = 0 then ax25_set_h p2 sr.2 else p2
  ax25_set_h (ax25_insert_addr p3 2 env.mycall_xmit) 2

/-- The packet built by the WIDEn-n branch for SSID 2..7
(digipeater.c:587-600): decrement the SSID in place and, if the original
packet has room (`ax25_get_num_repeaters(pp) < AX25_MAX_REPEATERS`), insert
`mycall_xmit` immediately before the pivot with H set. -/
def wideBuild (env : DigiEnv) (pp : Packet) (r ssid : Nat) : Packet :=
  let p1 := ax25_set_ssid (ax25_dup pp) r (ssid - 1)
  if ax25_get_num_repeaters pp < 8 then
    ax25_set_h (ax25_insert_addr p1 r env.mycall_xmit) r
  else p1

/-- The one-repeater replacement used by the explicit-my-call branch
(digipeater.c:367-378), the alias branch (424-434) and the WIDE SSID = 1
branch (576-585): duplicate, write `mycall_xmit` at `r`, set H. -/
def replaceBuild (env : DigiEnv) (pp : Packet) (r : Nat) : Packet :=
  ax25_set_h (ax25_set_addr (ax25_dup pp) r env.mycall_xmit) r

/-- `digipeat_match` (digipeater.c:297-614), with the input packet threaded
through explicitly: the first component is the returned packet (or none for
`return NULL`), the second is the state of the input packet object when the
function returns.  No statement of the source writes to `pp` (all
`ax25_set_*` / `ax25_remove_addr` / `ax25_insert_addr` calls target
`result`, a duplicate), so every branch returns `pp` itself as the second
component.  Stage order as in the source: filter, pivot, explicit-my-call,
source guard, dedupe, alias, pre-empt, WIDEn-n (with the ATGP special case
first inside the wide match). -/
def digipeat_matchS (env : DigiEnv) (pp : Packet) : Option Packet × Packet :=
  if passFilter env pp = false then (none, pp)
  else
    match ax25_get_first_not_repeated pp with
    | none => (none, pp)
    | some r =>
      let repeater := ax25_get_addr_with_ssid pp r
      let ssid := ax25_get_ssid pp r
      if repeater = env.mycall_rec then
        (some (replaceBuild env pp r), pp)
      else if ax25_get_addr_with_ssid pp 1 = env.mycall_rec then (none, pp)
      else if env.dedupe_check pp = true then (none, pp)
      else if env.aliasP repeater = true then
        (some (replaceBuild env pp r), pp)
      else
        match preemptStage env pp r with
        | some r2 => (some (preemptBuild env pp r2), pp)
        | none =>
          if env.wideP repeater = true then
            if 0 < env.atgp.length ∧ atgpMatches env.atgp repeater = true ∧
               1 ≤ ssid ∧ ssid ≤ 7 then
              (some (atgpBuild env pp r ssid), pp)
            else if ssid = 1 then
              (some (replaceBuild env pp r), pp)
            else if 2 ≤ ssid ∧ ssid ≤ 7 then
              (some (wideBuild env pp r ssid), pp)
            else (none, pp)
          else (none, pp)

/-- The packet returned by `digipeat_match`. -/
def digipeat_match (env : DigiEnv) (pp : Packet) : Option Packet :=
  (digipeat_matchS env pp).1

/-! ### The `digipeater` dispatch loop (digipeater.c:146-245)

`dedupe_remember` and `tq_append` live outside the provided sources; the
loop's observable behaviour is modelled as the list of calls it makes, in
order. -/

/-- Transmit-queue priority (`tq.h`): `TQ_PRIO_0_HI` and `TQ_PRIO_1_LO`. -/
inductive Prio where
  | hi
  | lo
deriving DecidableEq, Repr

/-- Modelled from the spec: the dedupe signature of a packet is its source,
destination and info field; the via path is not part of it (section 4.5,
digipeater.c:392-397). -/
def dedupe_sig (p : Packet) : Addr × Addr × List Nat := (p.src, p.dest, p.info)

/-- One observable call made by `digipeater`: `dedupe_remember (pp, to_chan)`
or `tq_append (to_chan, prio, result)`. -/
inductive DigiEvent where
  | remember (sig : Addr × Addr × List Nat) (to_chan : Nat)
  | append (to_chan : Nat) (prio : Prio) (p : Packet)
deriving DecidableEq, Repr

/-- The global configuration consulted by `digipeater`
(digipeater.c:198-243): the per-channel `mycall` from the audio
configuration and the per-pair digipeater settings.  `MAX_TOTAL_CHANS`
(defined in the absent `direwolf.h`) is the field `nchans`. -/
structure DigiConfig where
  nchans : Nat
  mycall : Nat → Addr
  enabled : Nat → Nat → Bool
  aliasP : Nat → Nat → String → Bool
  wideP : Nat → Nat → String → Bool
  preempt : Nat → Nat → Preempt
  atgp : Nat → Nat → String
  filt : Nat → Nat → Option (Packet → Bool)
  dedupe : Nat → Packet → Bool

/-- The `digipeat_match` argument bundle built at the call sites
(digipeater.c:203-208 and 230-235): `mycall_rec` is `mycall[from_chan]`,
`mycall_xmit` is `mycall[to_chan]`, and the dedupe history is per
`to_chan`. -/
def envFor (cfg : DigiConfig) (from_chan to_chan : Nat) : DigiEnv :=
  { mycall_rec := addrStr (cfg.mycall from_chan)
    mycall_xmit := cfg.mycall to_chan
    aliasP := cfg.aliasP from_chan to_chan
    wideP := cfg.wideP from_chan to_chan
    preempt := cfg.preempt from_chan to_chan
    atgp := cfg.atgp from_chan to_chan
    filt := cfg.filt from_chan to_chan
    dedupe_check := cfg.dedupe to_chan }

/-- The body shared by both passes (digipeater.c:209-213 and 236-240): when
`digipeat_match` returns a packet, call `dedupe_remember (pp, to_chan)` and
then `tq_append (to_chan, prio, result)`. -/
def digiStep (cfg : DigiConfig) (from_chan : Nat) (pp : Packet) (to_chan : Nat)
    (prio : Prio) : List DigiEvent :=
  match digipeat_match (envFor cfg from_chan to_chan) pp with
  | some result => [DigiEvent.remember (dedupe_sig pp) to_chan,
                    DigiEvent.append to_chan prio result]
  | none => []

/-- First pass of `digipeater` (digipeater.c:198-216): same-channel pairs,
high-priority queue. -/
def digiPassSame (cfg : DigiConfig) (from_chan : Nat) (pp : Packet) : List DigiEvent :=
  (List.range cfg.nchans).flatMap fun to_chan =>
    if cfg.enabled from_chan to_chan = true ∧ to_chan = from_chan then
      digiStep cfg from_chan pp to_chan Prio.hi
    else []

/-- Second pass of `digipeater` (digipeater.c:225-243): cross-channel pairs,
low-priority queue. -/
def digiPassCross (cfg : DigiConfig) (from_chan : Nat) (pp : Packet) : List DigiEvent :=
  (List.range cfg.nchans).flatMap fun to_chan =>
    if cfg.enabled from_chan to_chan = true ∧ to_chan ≠ from_chan then
      digiStep cfg from_chan pp to_chan Prio.lo
    else []

/-- The ordered list of `dedupe_remember` / `tq_append` calls made by
`digipeater (from_chan, pp)` (digipeater.c:146-245): the same-channel pass
runs in full before the cross-channel pass. -/
def digipeaterTrace (cfg : DigiConfig) (from_chan : Nat) (pp : Packet) : List DigiEvent :=
  digiPassSame cfg from_chan pp ++ digiPassCross cfg from_chan pp

/-! ### Dispatch-hub routing (`src/direwolf.c`, `app_process_rec_packet`) -/

/-- `retry_t`: the fix-bits recovery level of a received frame.  Only
equality with `RETRY_NONE` matters to the dispatch hub. -/
inductive RetryLevel where
  | none_
  | single
  | double
  | triple
  | two_sep
  | passall
deriving DecidableEq, Repr

/-- `fec_type_t`: which FEC envelope (if any) delivered the frame. -/
inductive FecType where
  | fnone
  | fx25
  | il2p
deriving DecidableEq, Repr

/-- The configuration consulted by the routing tail of
`app_process_rec_packet`: the virtual IGate channel, the APRStt gateway
flag, and `MAX_RADIO_CHANS` (defined in the absent `direwolf.h`). -/
structure DispatchCtx where
  igate_vchannel : Int
  gateway_enabled : Bool
  max_radio_chans : Nat

/-- Which consumers receive the frame after printing and client fan-out. -/
structure Consumers where
  aprstt : Bool
  igate : Bool
  regen : Bool
  digipeat : Bool
  cdigipeat : Bool
deriving DecidableEq, Repr

/-- The CRC-confidence gate used three times in the routing tail
(direwolf.c:624, 645, 656):
`retries == RETRY_NONE || fec_type == fec_type_fx25 || fec_type == fec_type_il2p`. -/
def crc_ok (retries : RetryLevel) (fec : FecType) : Bool :=
  retries = RetryLevel.none_ ∨ fec = FecType.fx25 ∨ fec = FecType.il2p

/-- The routing tail of `app_process_rec_packet` (direwolf.c:586-660):
frames from the IGate virtual channel go nowhere; DTMF frames
(`subchan == -1`) go to the APRStt gateway only (when enabled and the info
part has at least 2 bytes); info starting with `t` (0x74) likewise; otherwise
the frame goes to the IGate and the APRS digipeater when it is APRS and
passes the CRC gate, to `digi_regen` unconditionally, and to the
connected-mode digipeater when `chan < MAX_RADIO_CHANS` and the CRC gate
passes. -/
def app_process_routing (ctx : DispatchCtx) (chan : Nat) (subchan : Int)
    (isAprs : Bool) (info : List Nat) (retries : RetryLevel) (fec : FecType) : Consumers :=
  if (chan : Int) = ctx.igate_vchannel then
    ⟨false, false, false, false, false⟩
  else if subchan = -1 then
    ⟨ctx.gateway_enabled && decide (2 ≤ info.length), false, false, false, false⟩
  else if info.head? = some 0x74 ∧ 2 ≤ info.length ∧ ctx.gateway_enabled = true then
    ⟨true, false, false, false, false⟩
  else
    ⟨false,
     isAprs && crc_ok retries fec,
     true,
     isAprs && crc_ok retries fec,
     decide (chan < ctx.max_radio_chans) && crc_ok retries fec⟩

/-! ## Lemmas and theorems -/

/-! ### KISS codec: claims C2 and C7 -/

/-- Decoding undoes escaping: the unwrap loop applied to an escaped payload
recovers the payload with no protocol errors. -/
theorem kiss_unwrapLoop_esc (A : List Nat) : kiss_unwrapLoop (kiss_esc A) false = (A, []) := by
  induction A with
  | nil => rfl
  | cons b t ih =>
    by_cases hb : b = FEND
    · subst hb
      simp [kiss_esc, kiss_unwrapLoop, FEND, FESC, TFEND, TFESC, ih]
    · by_cases hb2 : b = FESC
      · subst hb2
        simp [kiss_esc, kiss_unwrapLoop, FEND, FESC, TFEND, TFESC, ih]
      · simp only [kiss_esc, if_neg hb, if_neg hb2, kiss_unwrapLoop, ih]
        simp [hb, hb2]

/-- The escaped payload is at most twice the original. -/
theorem kiss_esc_length (A : List Nat) : (kiss_esc A).length ≤ 2 * A.length := by
  induction A with
  | nil => simp [kiss_esc]
  | cons b t ih =>
    by_cases hb : b = FEND
    · simp only [kiss_esc, if_pos hb, List.length_cons]
      omega
    · by_cases hb2 : b = FESC
      · simp only [kiss_esc, if_neg hb, if_pos hb2, List.length_cons]
        omega
      · simp only [kiss_esc, if_neg hb, if_neg hb2, List.length_cons]
        omega

/-- Full decode of a full encode: output is the original payload, and no
protocol error is logged. -/
theorem kiss_unwrapE_encapsulate (A : List Nat) : kiss_unwrapE (kiss_encapsulate A) = (A, []) := by
  have hform : kiss_encapsulate A = (FEND :: kiss_esc A) ++ [FEND] := by
    simp [kiss_encapsulate]
  have hlast : (kiss_encapsulate A).getLast? = some FEND := by
    rw [hform, List.getLast?_concat]
  have hdrop : (kiss_encapsulate A).dropLast = FEND :: kiss_esc A := by
    rw [hform, List.dropLast_concat]
  have hhead : (kiss_encapsulate A).head? = some FEND := by
    rw [kiss_encapsulate]; rfl
  have hlen : ¬ (kiss_encapsulate A).length < 2 := by
    rw [hform]
    simp
  rw [kiss_unwrapE, if_neg hlen]
  simp only [hlast, hdrop, hhead, if_pos rfl]
  simp [kiss_unwrapLoop_esc A]

/-- C2: KISS round-trip and length bound.  For every byte list `A`,
`kiss_unwrap (kiss_encapsulate A) = A` and the encoding has length at most
`2·len(A)+2`; encoding `C0 DB 01 C0` yields `C0 DB DC DB DD 01 DB DC C0`,
which decodes back to the original. -/
theorem claim_C2_kiss_roundtrip :
    (∀ A : List Nat, kiss_unwrap (kiss_encapsulate A) = A ∧
      (kiss_encapsulate A).length ≤ 2 * A.length + 2) ∧
    kiss_encapsulate [0xC0, 0xDB, 0x01, 0xC0] =
      [0xC0, 0xDB, 0xDC, 0xDB, 0xDD, 0x01, 0xDB, 0xDC, 0xC0] ∧
    kiss_unwrap [0xC0, 0xDB, 0xDC, 0xDB, 0xDD, 0x01, 0xDB, 0xDC, 0xC0] =
      [0xC0, 0xDB, 0x01, 0xC0] := by
  refine ⟨fun A => ⟨?_, ?_⟩, by decide, by decide⟩
  · rw [kiss_unwrap, kiss_unwrapE_encapsulate]
  · have := kiss_esc_length A
    simp only [kiss_encapsulate, List.length_cons, List.length_append, List.length_nil]
    omega

/-- C7 counterexample: on input `01 02` (no trailing FEND) `kiss_unwrap`
logs the protocol error but still decodes and returns the bytes, exactly as
it decodes the well-formed frame `C0 01 02 C0`; the frame is not discarded. -/
theorem claim_C7_counterexample :
    (kiss_unwrapE [0x01, 0x02]).2 = [KissErr.missingFend] ∧
    (kiss_unwrapE [0x01, 0x02]).1 = [0x01, 0x02] ∧
    kiss_unwrapE [0xC0, 0x01, 0x02, 0xC0] = ([0x01, 0x02], []) := by
  decide

/-- C7 (amended): `kiss_unwrap` accepts an optional leading FEND (dropping
it does not change the result); a missing trailing FEND is logged as a
protocol error but the bytes are still decoded exactly as if the FEND were
present; a FESC followed by anything other than TFEND/TFESC is logged as a
protocol error, the offending pair contributes no output byte, and decoding
continues.  In the error cases the decoded frame is returned, not
discarded. -/
theorem claim_C7_amended :
    (∀ xs : List Nat, xs ≠ [] → xs.head? ≠ some FEND →
      kiss_unwrapE (FEND :: (xs ++ [FEND])) = kiss_unwrapE (xs ++ [FEND])) ∧
    (∀ inp : List Nat, 2 ≤ inp.length → inp.getLast? ≠ some FEND →
      KissErr.missingFend ∈ (kiss_unwrapE inp).2 ∧
      (kiss_unwrapE inp).1 = (kiss_unwrapE (inp ++ [FEND])).1) ∧
    (∀ (b : Nat) (rest : List Nat), b ≠ TFEND → b ≠ TFESC →
      kiss_unwrapLoop (b :: rest) true =
        ((kiss_unwrapLoop rest false).1,
         (if b = FEND then [KissErr.midFend] else []) ++
           KissErr.badEscape :: (kiss_unwrapLoop rest false).2)) := by
  refine ⟨?_, ?_, ?_⟩
  · intro xs hne hhead
    have hlenL : ¬ (FEND :: (xs ++ [FEND])).length < 2 := by simp
    have hlenR : ¬ (xs ++ [FEND]).length < 2 := by
      rcases xs with _ | ⟨a, t⟩
      · exact absurd rfl hne
      · simp
    have hlastL : (FEND :: (xs ++ [FEND])).getLast? = some FEND := by
      have : FEND :: (xs ++ [FEND]) = (FEND :: xs) ++ [FEND] := by simp
      rw [this, List.getLast?_concat]
    have hlastR : (xs ++ [FEND]).getLast? = some FEND := List.getLast?_concat xs
    have hdropL : (FEND :: (xs ++ [FEND])).dropLast = FEND :: xs := by
      have : FEND :: (xs ++ [FEND]) = (FEND :: xs) ++ [FEND] := by simp
      rw [this, List.dropLast_concat]
    have hdropR : (xs ++ [FEND]).dropLast = xs := List.dropLast_concat
    have hheadR : (xs ++ [FEND]).head? = xs.head? := by
      rcases xs with _ | ⟨a, t⟩
      · exact absurd rfl hne
      · rfl
    have hx : 0 < xs.length := List.length_pos.mpr hne
    simp [kiss_unwrapE, hlenL, hlenR, hlastL, hlastR, hdropL, hdropR, hheadR, hhead]
    rw [if_neg (by omega), if_neg (by omega)]
  · intro inp hlen hlast
    have hlen1 : ¬ inp.length < 2 := by omega
    have hlen2 : ¬ (inp ++ [FEND]).length < 2 := by simp; omega
    have hlast2 : (inp ++ [FEND]).getLast? = some FEND := List.getLast?_concat inp
    have hdrop2 : (inp ++ [FEND]).dropLast = inp := List.dropLast_concat
    have hhead2 : (inp ++ [FEND]).head? = inp.head? := by
      rcases inp with _ | ⟨a, t⟩
      · simp at hlen
      · rfl
    constructor
    · simp [kiss_unwrapE, hlen1, hlast]
    · simp [kiss_unwrapE, hlen1, hlen2, hlast, hlast2, hdrop2, hhead2]
      rw [if_neg (show ¬ inp.length + 1 < 2 by omega)]
  · intro b rest hb1 hb2
    simp [kiss_unwrapLoop, hb1, hb2]

/-- C7 witness: the amended theorem applied at concrete inputs `[1]`,
`[1, 2]` and escape byte `5`. -/
theorem claim_C7_witness :
    kiss_unwrapE (FEND :: ([1] ++ [FEND])) = kiss_unwrapE ([1] ++ [FEND]) ∧
    (KissErr.missingFend ∈ (kiss_unwrapE [1, 2]).2 ∧
      (kiss_unwrapE [1, 2]).1 = (kiss_unwrapE ([1, 2] ++ [FEND])).1) ∧
    kiss_unwrapLoop (5 :: [6]) true =
      ((kiss_unwrapLoop [6] false).1,
       (if (5 : Nat) = FEND then [KissErr.midFend] else []) ++
         KissErr.badEscape :: (kiss_unwrapLoop [6] false).2) :=
  ⟨claim_C7_amended.1 [1] (by decide) (by decide),
   claim_C7_amended.2.1 [1, 2] (by decide) (by decide),
   claim_C7_amended.2.2 5 [6] (by decide) (by decide)⟩

/-! ### List index helpers -/

/-- `getD` at the length of a prefix picks the element right after it. -/
theorem getD_append_len {α : Type} (u : List α) (a : α) (t : List α) (d : α) :
    (u ++ a :: t).getD u.length d = a := by
  induction u with
  | nil => rfl
  | cons b u ih => simpa using ih

/-- `modifyIdx` at the length of a prefix rewrites the element right after
it. -/
theorem modifyIdx_append_len {α : Type} (u : List α) (a : α) (t : List α) (f : α → α) :
    modifyIdx (u ++ a :: t) u.length f = u ++ f a :: t := by
  induction u with
  | nil => rfl
  | cons b u ih => simpa [modifyIdx] using ih

/-- `insIdx` at the length of a prefix inserts right after it. -/
theorem insIdx_append_len {α : Type} (u : List α) (t : List α) (c : α) :
    insIdx (u ++ t) u.length c = u ++ c :: t := by
  induction u with
  | nil => simp [insIdx]
  | cons b u ih => simpa [insIdx] using ih

/-- `eraseIdx` at the length of a prefix removes the element right after
it. -/
theorem eraseIdx_append_len {α : Type} (u : List α) (a : α) (t : List α) :
    (u ++ a :: t).eraseIdx u.length = u ++ t := by
  induction u with
  | nil => rfl
  | cons b u ih => simpa [List.eraseIdx] using ih

/-! ### Pivot and scan structure -/

/-- A successful `firstNotRepeatedAux` scan splits the list into an
all-used prefix, the pivot (H = 0), and a tail; the pivot's frame position
is the start position plus the prefix length. -/
theorem firstNotRepeatedAux_decomp :
    ∀ (l : List Addr) (pos r : Nat), firstNotRepeatedAux l pos = some r →
      ∃ u a t, l = u ++ a :: t ∧ pos + u.length = r ∧
        (∀ x ∈ u, x.h = true) ∧ a.h = false := by
  intro l
  induction l with
  | nil => intro pos r h; simp [firstNotRepeatedAux] at h
  | cons b bt ih =>
    intro pos r h
    rw [firstNotRepeatedAux] at h
    by_cases hb : b.h = false
    · rw [if_pos hb] at h
      obtain rfl : pos = r := by injection h
      exact ⟨[], b, bt, by simp, by simp, by simp, hb⟩
    · rw [if_neg hb] at h
      obtain ⟨u, a, t, hl, hlen, hu, ha⟩ := ih (pos + 1) r h
      refine ⟨b :: u, a, t, by simp [hl], by simp only [List.length_cons]; omega, ?_, ha⟩
      intro x hx
      rcases List.mem_cons.mp hx with rfl | hx
      · simpa using hb
      · exact hu x hx

/-- The pivot decomposition for a packet: `ax25_get_first_not_repeated`
returning frame position `r` means the repeater list is an all-used prefix
of length `r - 2`, the pivot with H = 0, and a tail, with `r ≥ 2`. -/
theorem first_not_repeated_decomp (pp : Packet) (r : Nat)
    (h : ax25_get_first_not_repeated pp = some r) :
    2 ≤ r ∧ ∃ u a t, pp.repeaters = u ++ a :: t ∧ u.length = r - 2 ∧
      (∀ x ∈ u, x.h = true) ∧ a.h = false := by
  obtain ⟨u, a, t, hl, hlen, hu, ha⟩ := firstNotRepeatedAux_decomp pp.repeaters 2 r h
  exact ⟨by omega, u, a, t, hl, by omega, hu, ha⟩

/-- The pre-empt scan only returns positions at or after its start. -/
theorem preemptScanAux_ge (env : DigiEnv) (pp : Packet) :
    ∀ (fuel s r2 : Nat), preemptScanAux env pp fuel s = some r2 → s ≤ r2 := by
  intro fuel
  induction fuel with
  | zero => intro s r2 h; simp [preemptScanAux] at h
  | succ f ih =>
    intro s r2 h
    rw [preemptScanAux] at h
    by_cases h1 : s < ax25_get_num_addr pp
    · rw [if_pos h1] at h
      by_cases h2 : ax25_get_addr_with_ssid pp s = env.mycall_rec ∨
          env.aliasP (ax25_get_addr_with_ssid pp s) = true
      · rw [if_pos h2] at h
        injection h with h
        omega
      · rw [if_neg h2] at h
        have := ih (s + 1) r2 h
        omega
    · rw [if_neg h1] at h
      exact absurd h (by simp)

/-- `preemptScan` from position `s` returns a position `≥ s`. -/
theorem preemptScan_ge (env : DigiEnv) (pp : Packet) (s r2 : Nat)
    (h : preemptScan env pp s = some r2) : s ≤ r2 :=
  preemptScanAux_ge env pp _ s r2 h

/-! ### Claim C9: the input packet is never mutated -/

/-- C9: `digipeat_match` never mutates its input packet: in the
state-threaded embedding the input packet object is returned unchanged on
every path, and every non-NULL result is built starting from `ax25_dup` of
the input (visible in `replaceBuild`, `preemptBuild`, `atgpBuild`,
`wideBuild`), so the input is never aliased into a transmit queue. -/
theorem claim_C9_no_mutation (env : DigiEnv) (pp : Packet) :
    (digipeat_matchS env pp).2 = pp := by
  simp only [digipeat_matchS]
  repeat' split
  all_goals rfl

/-! ### Claim C1: the source guard and the explicit-my-call branch -/

/-- C1 counterexample: a packet whose source equals `mycall_rec` and whose
first unused repeater also equals `mycall_rec` is digipeated: the
explicit-my-call branch (digipeater.c:367-378) runs before the source guard
(digipeater.c:385-388), so `digipeat_match` returns a packet, not NULL. -/
theorem claim_C1_counterexample :
    ax25_get_addr_with_ssid
      ⟨⟨"B", 0, false⟩, ⟨"MYCALL", 0, false⟩, [⟨"MYCALL", 0, false⟩], []⟩ 1 = "MYCALL" ∧
    digipeat_match
      ⟨"MYCALL", ⟨"ME", 7, false⟩, fun _ => false, fun _ => false, Preempt.off, "", none,
        fun _ => false⟩
      ⟨⟨"B", 0, false⟩, ⟨"MYCALL", 0, false⟩, [⟨"MYCALL", 0, false⟩], []⟩ =
      some ⟨⟨"B", 0, false⟩, ⟨"MYCALL", 0, false⟩, [⟨"ME", 7, true⟩], []⟩ := by
  decide

/-- C1 (amended): if the source address (with SSID) equals `mycall_rec` and
the first unused repeater address does not equal `mycall_rec`, then
`digipeat_match` returns NULL, so nothing is emitted for that channel pair;
when the first unused repeater also equals `mycall_rec` the
explicit-my-call branch bypasses the source guard and a packet is
emitted. -/
theorem claim_C1_amended (env : DigiEnv) (pp : Packet) (r : Nat)
    (hsrc : ax25_get_addr_with_ssid pp 1 = env.mycall_rec)
    (hr : ax25_get_first_not_repeated pp = some r)
    (hrep : ax25_get_addr_with_ssid pp r ≠ env.mycall_rec) :
    digipeat_match env pp = none := by
  rw [digipeat_match, digipeat_matchS]
  cases hf : passFilter env pp
  · simp [hf]
  · simp [hf, hr, hrep, hsrc]

/-- C1 witness: amended theorem applied to a concrete packet whose source is
`MYCALL` and whose first unused repeater is `WIDE1-1`. -/
theorem claim_C1_witness :
    digipeat_match
      ⟨"MYCALL", ⟨"ME", 7, false⟩, fun _ => false, fun _ => false, Preempt.off, "", none,
        fun _ => false⟩
      ⟨⟨"B", 0, false⟩, ⟨"MYCALL", 0, false⟩, [⟨"WIDE1", 1, false⟩], []⟩ = none :=
  claim_C1_amended _ _ 2 (by decide) (by decide) (by decide)

/-! ### Claim C4: dispatch-hub routing gates -/

/-- C4 counterexample: a frame recovered by the fix-bits ladder
(`retries = RETRY_SINGLE`, `fec_type = none`) on an ordinary channel is
still passed to `digi_regen` (direwolf.c:635 has no CRC gate), contradicting
the claim that all four consumers are gated on
`retry_level==NONE or fec ∈ {fx25, il2p}` and that such a frame reaches none
of them. -/
theorem claim_C4_counterexample :
    (app_process_routing ⟨-1, false, 3⟩ 0 0 true [62] RetryLevel.single FecType.fnone).regen
      = true ∧
    crc_ok RetryLevel.single FecType.fnone = false := by
  decide

/-- C4 (amended): in the dispatch hub, for a frame not from the IGate
virtual channel, not from the DTMF decoder, and not an APRStt `t...` test
sequence: the IGate and the APRS digipeater receive it exactly when it is
APRS and the CRC gate (`retries==NONE` or `fec ∈ {fx25, il2p}`) passes; the
connected-mode digipeater exactly when `chan < MAX_RADIO_CHANS` and the CRC
gate passes; and `digi_regen` receives it unconditionally — so a frame
recovered by fix-bits still reaches `digi_regen` but none of the other
three. -/
theorem claim_C4_amended (ctx : DispatchCtx) (chan : Nat) (subchan : Int)
    (isAprs : Bool) (info : List Nat) (retries : RetryLevel) (fec : FecType)
    (hv : (chan : Int) ≠ ctx.igate_vchannel) (hd : subchan ≠ -1)
    (ht : ¬ (info.head? = some 0x74 ∧ 2 ≤ info.length ∧ ctx.gateway_enabled = true)) :
    app_process_routing ctx chan subchan isAprs info retries fec =
      ⟨false, isAprs && crc_ok retries fec, true, isAprs && crc_ok retries fec,
        decide (chan < ctx.max_radio_chans) && crc_ok retries fec⟩ := by
  rw [app_process_routing, if_neg hv, if_neg hd, if_neg ht]

/-- C4 witness: amended theorem applied to a fix-bits-recovered APRS frame
on channel 0. -/
theorem claim_C4_witness :
    app_process_routing ⟨-1, false, 3⟩ 0 0 true [62] RetryLevel.single FecType.fnone =
      ⟨false, true && crc_ok RetryLevel.single FecType.fnone, true,
        true && crc_ok RetryLevel.single FecType.fnone,
        decide ((0 : Nat) < 3) && crc_ok RetryLevel.single FecType.fnone⟩ :=
  claim_C4_amended ⟨-1, false, 3⟩ 0 0 true [62] RetryLevel.single FecType.fnone
    (by decide) (by decide) (by decide)

/-! ### Claims C8 and C10: the `digipeater` loop -/

/-- An append event produced by `digiStep` carries the step's channel and
priority. -/
theorem digiStep_append_eq (cfg : DigiConfig) (fc : Nat) (pp : Packet) (tc : Nat)
    (prio : Prio) (toC : Nat) (p : Prio) (q : Packet)
    (h : DigiEvent.append toC p q ∈ digiStep cfg fc pp tc prio) : toC = tc ∧ p = prio := by
  rw [digiStep] at h
  cases hm : digipeat_match (envFor cfg fc tc) pp with
  | none => rw [hm] at h; simp at h
  | some res =>
    rw [hm] at h
    simp at h
    exact ⟨h.1, h.2.1⟩

/-- `digiStep` emits either nothing or exactly a `dedupe_remember` of the
original packet's signature followed by the `tq_append` for the same
channel. -/
theorem digiStep_shape (cfg : DigiConfig) (fc : Nat) (pp : Packet) (tc : Nat) (prio : Prio) :
    digiStep cfg fc pp tc prio = [] ∨ ∃ q, digiStep cfg fc pp tc prio =
      [DigiEvent.remember (dedupe_sig pp) tc, DigiEvent.append tc prio q] := by
  cases hm : digipeat_match (envFor cfg fc tc) pp with
  | none => left; rw [digiStep, hm]
  | some res => right; exact ⟨res, by rw [digiStep, hm]⟩

/-- Appends of the same-channel pass target `from_chan` with high
priority. -/
theorem digiPassSame_append (cfg : DigiConfig) (fc : Nat) (pp : Packet)
    (toC : Nat) (p : Prio) (q : Packet)
    (h : DigiEvent.append toC p q ∈ digiPassSame cfg fc pp) : toC = fc ∧ p = Prio.hi := by
  rw [digiPassSame, List.mem_flatMap] at h
  obtain ⟨tc, -, hmem⟩ := h
  by_cases hc : cfg.enabled fc tc = true ∧ tc = fc
  · rw [if_pos hc] at hmem
    obtain ⟨h1, h2⟩ := digiStep_append_eq cfg fc pp tc Prio.hi toC p q hmem
    exact ⟨h1.trans hc.2, h2⟩
  · rw [if_neg hc] at hmem
    simp at hmem

/-- Appends of the cross-channel pass target a channel other than
`from_chan` with low priority. -/
theorem digiPassCross_append (cfg : DigiConfig) (fc : Nat) (pp : Packet)
    (toC : Nat) (p : Prio) (q : Packet)
    (h : DigiEvent.append toC p q ∈ digiPassCross cfg fc pp) : toC ≠ fc ∧ p = Prio.lo := by
  rw [digiPassCross, List.mem_flatMap] at h
  obtain ⟨tc, -, hmem⟩ := h
  by_cases hc : cfg.enabled fc tc = true ∧ tc ≠ fc
  · rw [if_pos hc] at hmem
    obtain ⟨h1, h2⟩ := digiStep_append_eq cfg fc pp tc Prio.lo toC p q hmem
    exact ⟨h1 ▸ hc.2, h2⟩
  · rw [if_neg hc] at hmem
    simp at hmem

/-- C8: every packet emitted by `digipeater` goes to the high-priority
queue exactly when `to_chan = from_chan` and to the low-priority queue when
they differ, and the same-channel pass runs in full before the
cross-channel pass. -/
theorem claim_C8_queue_priority (cfg : DigiConfig) (from_chan : Nat) (pp : Packet) :
    (∀ (toC : Nat) (prio : Prio) (q : Packet),
        DigiEvent.append toC prio q ∈ digipeaterTrace cfg from_chan pp →
        (prio = Prio.hi ↔ toC = from_chan)) ∧
    digipeaterTrace cfg from_chan pp =
      digiPassSame cfg from_chan pp ++ digiPassCross cfg from_chan pp ∧
    (∀ (toC : Nat) (prio : Prio) (q : Packet),
        DigiEvent.append toC prio q ∈ digiPassSame cfg from_chan pp →
        toC = from_chan ∧ prio = Prio.hi) ∧
    (∀ (toC : Nat) (prio : Prio) (q : Packet),
        DigiEvent.append toC prio q ∈ digiPassCross cfg from_chan pp →
        toC ≠ from_chan ∧ prio = Prio.lo) := by
  refine ⟨?_, rfl,
    fun toC prio q h => digiPassSame_append cfg from_chan pp toC prio q h,
    fun toC prio q h => digiPassCross_append cfg from_chan pp toC prio q h⟩
  intro toC prio q h
  rcases List.mem_append.mp h with h | h
  · obtain ⟨h1, h2⟩ := digiPassSame_append cfg from_chan pp toC prio q h
    exact ⟨fun _ => h1, fun _ => h2⟩
  · obtain ⟨h1, h2⟩ := digiPassCross_append cfg from_chan pp toC prio q h
    exact ⟨fun hp => absurd (h2.symm.trans hp) (by decide), fun hto => absurd hto h1⟩

/-- C8 witness: the theorem applied to a two-channel configuration that
digipeats `A>B,WIDE1-1` on both channels: the same-channel append gets the
high-priority queue, the cross-channel one the low-priority queue. -/
theorem claim_C8_witness :
    (Prio.hi = Prio.hi ↔ (0 : Nat) = 0) ∧ (Prio.lo = Prio.hi ↔ (1 : Nat) = 0) :=
  ⟨(claim_C8_queue_priority
      ⟨2, fun _ => ⟨"N0CALL", 1, false⟩, fun _ _ => true, fun _ _ _ => false,
        fun _ _ s => s = "WIDE1-1", fun _ _ => Preempt.off, fun _ _ => "", fun _ _ => none,
        fun _ _ => false⟩ 0
      ⟨⟨"B", 0, false⟩, ⟨"A", 0, false⟩, [⟨"WIDE1", 1, false⟩], []⟩).1 0 Prio.hi
      ⟨⟨"B", 0, false⟩, ⟨"A", 0, false⟩, [⟨"N0CALL", 1, true⟩], []⟩ (by decide),
   (claim_C8_queue_priority
      ⟨2, fun _ => ⟨"N0CALL", 1, false⟩, fun _ _ => true, fun _ _ _ => false,
        fun _ _ s => s = "WIDE1-1", fun _ _ => Preempt.off, fun _ _ => "", fun _ _ => none,
        fun _ _ => false⟩ 0
      ⟨⟨"B", 0, false⟩, ⟨"A", 0, false⟩, [⟨"WIDE1", 1, false⟩], []⟩).1 1 Prio.lo
      ⟨⟨"B", 0, false⟩, ⟨"A", 0, false⟩, [⟨"N0CALL", 1, true⟩], []⟩ (by decide)⟩

/-- C10: the call trace of `digipeater` splits into per-pair blocks, each of
which is empty or exactly `dedupe_remember` of the original packet's
(source, destination, info) signature for `to_chan` immediately followed by
the `tq_append` for that same `to_chan` — so every emission, including those
from the explicit-my-call branch that bypasses the `dedupe_check` lookup,
deposits its signature into the dedupe history for the destination channel
before being queued. -/
theorem claim_C10_remember_before_append (cfg : DigiConfig) (from_chan : Nat) (pp : Packet) :
    ∃ blocks : List (List DigiEvent),
      digipeaterTrace cfg from_chan pp = blocks.flatten ∧
      ∀ b ∈ blocks, b = [] ∨ ∃ toC prio q,
        b = [DigiEvent.remember (dedupe_sig pp) toC, DigiEvent.append toC prio q] := by
  refine ⟨((List.range cfg.nchans).map fun tc =>
      if cfg.enabled from_chan tc = true ∧ tc = from_chan then
        digiStep cfg from_chan pp tc Prio.hi
      else []) ++
    ((List.range cfg.nchans).map fun tc =>
      if cfg.enabled from_chan tc = true ∧ tc ≠ from_chan then
        digiStep cfg from_chan pp tc Prio.lo
      else []), ?_, ?_⟩
  · rw [digipeaterTrace, List.flatten_append, digiPassSame, digiPassCross,
      List.flatMap_def, List.flatMap_def]
  · intro b hb
    rcases List.mem_append.mp hb with hb | hb <;>
      obtain ⟨tc, -, rfl⟩ := List.mem_map.mp hb
    · by_cases hc : cfg.enabled from_chan tc = true ∧ tc = from_chan
      · rw [if_pos hc]
        rcases digiStep_shape cfg from_chan pp tc Prio.hi with h | ⟨q, h⟩
        · exact Or.inl h
        · exact Or.inr ⟨tc, Prio.hi, q, h⟩
      · rw [if_neg hc]
        exact Or.inl rfl
    · by_cases hc : cfg.enabled from_chan tc = true ∧ tc ≠ from_chan
      · rw [if_pos hc]
        rcases digiStep_shape cfg from_chan pp tc Prio.lo with h | ⟨q, h⟩
        · exact Or.inl h
        · exact Or.inr ⟨tc, Prio.lo, q, h⟩
      · rw [if_neg hc]
        exact Or.inl rfl

/-! ### Loop characterisations -/

/-- Unfolding equation for `traceLoop` at a successor position. -/
theorem traceLoop_succ (p : Packet) (k : Nat) :
    traceLoop p (k + 1) =
      if 2 < k + 1 ∧ ax25_get_h p k = false then traceLoop (ax25_remove_addr p k) k
      else p := rfl

/-- `modifyIdx` preserves length. -/
theorem modifyIdx_length {α : Type} : ∀ (l : List α) (n : Nat) (f : α → α),
    (modifyIdx l n f).length = l.length := by
  intro l
  induction l with
  | nil => intro n f; rfl
  | cons a t ih =>
    intro n f
    cases n with
    | zero => rfl
    | succ m => simp [modifyIdx, ih]

/-- Reading the H bit right after a prefix of known length. -/
theorem ax25_get_h_at_len (p : Packet) (u : List Addr) (a : Addr) (t : List Addr)
    (hrep : p.repeaters = u ++ a :: t) : ax25_get_h p (2 + u.length) = a.h := by
  rw [ax25_get_h, repGet, hrep, show 2 + u.length - 2 = u.length by omega, getD_append_len]

/-- Removing the address right after a prefix of known length. -/
theorem ax25_remove_at_len (p : Packet) (u : List Addr) (a : Addr) (t : List Addr)
    (hrep : p.repeaters = u ++ a :: t) :
    ax25_remove_addr p (2 + u.length) = { p with repeaters := u ++ t } := by
  rw [ax25_remove_addr, hrep, show 2 + u.length - 2 = u.length by omega, eraseIdx_append_len]

/-- Setting the H bit right after a prefix of known length. -/
theorem ax25_set_h_at_len (p : Packet) (u : List Addr) (a : Addr) (t : List Addr)
    (hrep : p.repeaters = u ++ a :: t) :
    ax25_set_h p (2 + u.length) = { p with repeaters := u ++ { a with h := true } :: t } := by
  rw [ax25_set_h, hrep, show 2 + u.length - 2 = u.length by omega, modifyIdx_append_len]

/-- Setting the SSID right after a prefix of known length. -/
theorem ax25_set_ssid_at_len (p : Packet) (u : List Addr) (a : Addr) (t : List Addr)
    (v : Nat) (hrep : p.repeaters = u ++ a :: t) :
    ax25_set_ssid p (2 + u.length) v =
      { p with repeaters := u ++ { a with ssid := v } :: t } := by
  rw [ax25_set_ssid, hrep, show 2 + u.length - 2 = u.length by omega, modifyIdx_append_len]

/-- Replacing callsign and SSID right after a prefix of known length. -/
theorem ax25_set_addr_at_len (p : Packet) (u : List Addr) (a : Addr) (t : List Addr)
    (c : Addr) (hrep : p.repeaters = u ++ a :: t) :
    ax25_set_addr p (2 + u.length) c =
      { p with repeaters := u ++ { a with base := c.base, ssid := c.ssid } :: t } := by
  rw [ax25_set_addr, hrep, show 2 + u.length - 2 = u.length by omega, modifyIdx_append_len]

/-- Inserting right after a prefix of known length (when there is room). -/
theorem ax25_insert_at_len (p : Packet) (u t : List Addr) (c : Addr)
    (hrep : p.repeaters = u ++ t) (hroom : p.repeaters.length < 8) :
    ax25_insert_addr p (2 + u.length) c =
      { p with repeaters := u ++ ⟨c.base, c.ssid, false⟩ :: t } := by
  rw [ax25_insert_addr, if_pos hroom, hrep, show 2 + u.length - 2 = u.length by omega,
    insIdx_append_len]

/-- The TRACE rewrite loop, entered at the position right after a block
`u ++ v` where `v` is entirely unused (H = 0) and `u` is entirely used
(H = 1), removes exactly `v` and stops. -/
theorem traceLoop_removes :
    ∀ (v : List Addr) (p : Packet) (u rest : List Addr),
      p.repeaters = u ++ v ++ rest → (∀ x ∈ v, x.h = false) → (∀ x ∈ u, x.h = true) →
      traceLoop p (2 + u.length + v.length) = { p with repeaters := u ++ rest } := by
  intro v
  induction v using List.reverseRecOn with
  | nil =>
    intro p u rest hrep hv hu
    simp only [List.append_nil] at hrep
    rcases u.eq_nil_or_concat with rfl | ⟨u0, y, rfl⟩
    · rw [show 2 + ([] : List Addr).length + ([] : List Addr).length = 1 + 1 by rfl,
        traceLoop_succ,
        if_neg (fun hcon => absurd hcon.1 (by omega))]
      simp only [List.nil_append] at hrep ⊢
      rw [← hrep]
    · have hrep0 : p.repeaters = u0 ++ y :: rest := by
        rw [hrep]
        simp
      have hy : y.h = true := hu y (by simp)
      rw [show 2 + (u0.concat y).length + ([] : List Addr).length = (2 + u0.length) + 1 by
          simp only [List.concat_eq_append, List.length_append, List.length_cons,
            List.length_nil]
          omega,
        traceLoop_succ]
      have hcond : ¬ (2 < 2 + u0.length + 1 ∧ ax25_get_h p (2 + u0.length) = false) := by
        intro hcon
        rw [ax25_get_h_at_len p u0 y rest hrep0, hy] at hcon
        exact absurd hcon.2 (by simp)
      rw [if_neg hcond, ← hrep]
  | append_singleton v0 z ih =>
    intro p u rest hrep hv hu
    have hz : z.h = false := hv z (by simp)
    have hrep1 : p.repeaters = (u ++ v0) ++ z :: rest := by
      rw [hrep]
      simp
    rw [show 2 + u.length + (v0 ++ [z]).length = (2 + (u ++ v0).length) + 1 by
        simp only [List.length_append, List.length_cons, List.length_nil]
        omega,
      traceLoop_succ]
    rw [if_pos ⟨by omega, by rw [ax25_get_h_at_len p (u ++ v0) z rest hrep1]; exact hz⟩]
    rw [ax25_remove_at_len p (u ++ v0) z rest hrep1]
    rw [show 2 + (u ++ v0).length = 2 + u.length + v0.length by
        simp only [List.length_append]
        omega]
    exact ih { p with repeaters := (u ++ v0) ++ rest } u rest (by simp)
      (fun x hx => hv x (by simp [hx])) hu

/-- The ATGP strip loop removes exactly the leading all-used block when the
element after it is unused, decrementing `r` once per removal; the fuel
never runs out because the pivot stops the loop. -/
theorem atgpStripAux_used :
    ∀ (u : List Addr) (fuel : Nat) (p : Packet) (a : Addr) (t : List Addr) (r : Nat),
      p.repeaters = u ++ a :: t → (∀ x ∈ u, x.h = true) → a.h = false →
      u.length < fuel →
      atgpStripAux fuel p r = ({ p with repeaters := a :: t }, r - u.length) := by
  intro u
  induction u with
  | nil =>
    intro fuel p a t r hrep hu ha hfuel
    cases fuel with
    | zero => omega
    | succ f =>
      simp only [List.nil_append] at hrep
      have hcond : ¬ (3 ≤ ax25_get_num_addr p ∧ ax25_get_h p 2 = true) := by
        intro hcon
        have := ax25_get_h_at_len p [] a t (by simpa using hrep)
        simp only [List.length_nil, Nat.add_zero] at this
        rw [this, ha] at hcon
        exact absurd hcon.2 (by simp)
      rw [atgpStripAux, if_neg hcond, ← hrep]
      rfl
  | cons b u0 ih =>
    intro fuel p a t r hrep hu ha hfuel
    cases fuel with
    | zero => simp at hfuel
    | succ f =>
      have hb : b.h = true := hu b (by simp)
      have hcond : 3 ≤ ax25_get_num_addr p ∧ ax25_get_h p 2 = true := by
        constructor
        · rw [ax25_get_num_addr, hrep]
          simp only [List.length_cons, List.length_append]
          omega
        · have := ax25_get_h_at_len p [] b (u0 ++ a :: t) (by simpa using hrep)
          simp only [List.length_nil, Nat.add_zero] at this
          rw [this, hb]
      have hrem : ax25_remove_addr p 2 = { p with repeaters := u0 ++ a :: t } := by
        have := ax25_remove_at_len p [] b (u0 ++ a :: t) (by simpa using hrep)
        simpa using this
      rw [atgpStripAux, if_pos hcond, hrem]
      rw [ih f { p with repeaters := u0 ++ a :: t } a t (r - 1) rfl
        (fun x hx => hu x (by simp [hx])) ha (by simp only [List.length_cons] at hfuel; omega)]
      congr 1
      simp only [List.length_cons]
      omega

/-! ### Claim C3: WIDEn-n decrement -/

/-- C3 counterexample: with an `atgp` prefix configured and matching, a
first unused repeater `HOP7-7` (wide-matching, SSID 7 ∈ [2,7]) that passes
the filter, source-guard, dedupe, alias and pre-empt stages is rewritten by
the ATGP special case (digipeater.c:537-563), not by the plain WIDE
decrement: the leading used repeater `USED` is removed and `mycall_xmit`
lands at REPEATER_1, so the result differs from the claim's shape (`USED`
kept, `mycall_xmit` inserted immediately before the decremented
address). -/
theorem claim_C3_counterexample :
    digipeat_match
      ⟨"MYCALL", ⟨"DIGI", 0, false⟩, fun _ => false, fun s => s = "HOP7-7", Preempt.off,
        "HOP", none, fun _ => false⟩
      ⟨⟨"B", 0, false⟩, ⟨"A", 0, false⟩,
        [⟨"USED", 0, true⟩, ⟨"HOP7", 7, false⟩], []⟩ =
      some ⟨⟨"B", 0, false⟩, ⟨"A", 0, false⟩,
        [⟨"DIGI", 0, true⟩, ⟨"HOP7", 6, false⟩], []⟩ ∧
    (⟨⟨"B", 0, false⟩, ⟨"A", 0, false⟩,
        [⟨"DIGI", 0, true⟩, ⟨"HOP7", 6, false⟩], []⟩ : Packet) ≠
      ⟨⟨"B", 0, false⟩, ⟨"A", 0, false⟩,
        [⟨"USED", 0, true⟩, ⟨"DIGI", 0, true⟩, ⟨"HOP7", 6, false⟩], []⟩ := by
  decide

/-- C3 (amended): if the first unused repeater matches the wide pattern with
SSID `n ∈ [2,7]`, the filter, explicit-my-call, source-guard, dedupe, alias
and pre-empt stages all pass, and additionally the ATGP special case does
not apply, then `digipeat_match` returns the WIDE-decrement copy: SSID
`n-1` at the pivot with H still 0, and — provided the original repeater
count is below 8 — `mycall_xmit` inserted immediately before the pivot with
H = 1; at 8 repeaters only the SSID decrement is applied. -/
theorem claim_C3_amended (env : DigiEnv) (pp : Packet) (r n : Nat)
    (hf : passFilter env pp = true)
    (hr : ax25_get_first_not_repeated pp = some r)
    (hme : ax25_get_addr_with_ssid pp r ≠ env.mycall_rec)
    (hsrc : ax25_get_addr_with_ssid pp 1 ≠ env.mycall_rec)
    (hdd : env.dedupe_check pp = false)
    (hal : env.aliasP (ax25_get_addr_with_ssid pp r) = false)
    (hpre : preemptStage env pp r = none)
    (hwide : env.wideP (ax25_get_addr_with_ssid pp r) = true)
    (hatgp : ¬ (0 < env.atgp.length ∧
      atgpMatches env.atgp (ax25_get_addr_with_ssid pp r) = true ∧ 1 ≤ n ∧ n ≤ 7))
    (hn : ax25_get_ssid pp r = n) (hn2 : 2 ≤ n) (hn7 : n ≤ 7) :
    digipeat_match env pp = some (wideBuild env pp r n) ∧
    ∀ u a t, pp.repeaters = u ++ a :: t → u.length = r - 2 →
      (wideBuild env pp r n).repeaters =
        if ax25_get_num_repeaters pp < 8 then
          u ++ ⟨env.mycall_xmit.base, env.mycall_xmit.ssid, true⟩ ::
            ⟨a.base, n - 1, false⟩ :: t
        else u ++ ⟨a.base, n - 1, false⟩ :: t := by
  have hne1 : ¬ n = 1 := by omega
  have hrange : 2 ≤ n ∧ n ≤ 7 := ⟨hn2, hn7⟩
  have h1n : 1 ≤ n := by omega
  have hatgp3 : ¬ (0 < env.atgp.length ∧
      atgpMatches env.atgp (ax25_get_addr_with_ssid pp r) = true) :=
    fun hc => hatgp ⟨hc.1, hc.2, h1n, hn7⟩
  constructor
  · simp [digipeat_match, digipeat_matchS, hf, hr, hme, hsrc, hdd, hal, hpre, hwide, hn,
      hatgp, hne1, hrange, h1n, hatgp3]
  · intro u a t hdecomp hlen
    obtain ⟨hge2, u', a', t', hl', hlen', hu', ha'⟩ := first_not_repeated_decomp pp r hr
    obtain ⟨hueq, heq2⟩ : u = u' ∧ a :: t = a' :: t' :=
      List.append_inj (hdecomp.symm.trans hl') (by omega)
    have hah : a.h = false := by
      have ha_eq : a = a' := by injection heq2
      rw [ha_eq]
      exact ha'
    have hreq : r = 2 + u.length := by omega
    subst hreq
    simp only [wideBuild, ax25_dup]
    rw [ax25_set_ssid_at_len pp u a t (n - 1) hdecomp]
    by_cases hroom : ax25_get_num_repeaters pp < 8
    · rw [if_pos hroom, if_pos hroom]
      have hroom1 : ({ pp with repeaters := u ++ { a with ssid := n - 1 } :: t } :
          Packet).repeaters.length < 8 := by
        rw [ax25_get_num_repeaters, hdecomp] at hroom
        simpa using hroom
      rw [ax25_insert_at_len _ u ({ a with ssid := n - 1 } :: t) env.mycall_xmit rfl hroom1]
      rw [ax25_set_h_at_len _ u ⟨env.mycall_xmit.base, env.mycall_xmit.ssid, false⟩
        ({ a with ssid := n - 1 } :: t) rfl]
      simp [hah]
    · rw [if_neg hroom, if_neg hroom]
      simp [hah]

/-- C3 witness: the amended theorem at the spec's WIDE2-2 example
(`A>B,WIDE2-2:hi`, `mycall_xmit = N0CALL-1`), yielding
`A>B,N0CALL-1*,WIDE2-1:hi`. -/
theorem claim_C3_witness :
    digipeat_match
      ⟨"MYCALL", ⟨"N0CALL", 1, false⟩, fun _ => false, fun s => s = "WIDE2-2", Preempt.off,
        "", none, fun _ => false⟩
      ⟨⟨"B", 0, false⟩, ⟨"A", 0, false⟩, [⟨"WIDE2", 2, false⟩], [104, 105]⟩ =
      some (wideBuild
        ⟨"MYCALL", ⟨"N0CALL", 1, false⟩, fun _ => false, fun s => s = "WIDE2-2", Preempt.off,
          "", none, fun _ => false⟩
        ⟨⟨"B", 0, false⟩, ⟨"A", 0, false⟩, [⟨"WIDE2", 2, false⟩], [104, 105]⟩ 2 2) ∧
    (wideBuild
        ⟨"MYCALL", ⟨"N0CALL", 1, false⟩, fun _ => false, fun s => s = "WIDE2-2", Preempt.off,
          "", none, fun _ => false⟩
        ⟨⟨"B", 0, false⟩, ⟨"A", 0, false⟩, [⟨"WIDE2", 2, false⟩], [104, 105]⟩ 2 2).repeaters =
      if ax25_get_num_repeaters
          ⟨⟨"B", 0, false⟩, ⟨"A", 0, false⟩, [⟨"WIDE2", 2, false⟩], [104, 105]⟩ < 8 then
        [] ++ ⟨"N0CALL", 1, true⟩ :: ⟨"WIDE2", 1, false⟩ :: []
      else [] ++ ⟨"WIDE2", 1, false⟩ :: [] :=
  ⟨(claim_C3_amended _ _ 2 2 (by decide) (by decide) (by decide) (by decide) (by decide)
      (by decide) (by decide) (by decide) (by decide) (by decide) (by decide) (by decide)).1,
   (claim_C3_amended _ _ 2 2 (by decide) (by decide) (by decide) (by decide) (by decide)
      (by decide) (by decide) (by decide) (by decide) (by decide) (by decide) (by decide)).2
     [] ⟨"WIDE2", 2, false⟩ [] (by decide) (by decide)⟩

/-! ### Claim C5: pre-emptive digipeating, TRACE policy -/

/-- C5 counterexample: with `preempt=TRACE`, the rewrite loop
(digipeater.c:503-506) removes unused repeaters walking down from the hit
and stops at the first used one, so an unused repeater before a used one
(`FOO` before `USED*`) survives: for repeater list `FOO, USED*, N0CALL` the
result keeps `FOO`, while the claim's shape ("removed exactly the prior
unused, leaving every H=1 repeater") would be `USED*, N0CALL-1*`. -/
theorem claim_C5_counterexample :
    digipeat_match
      ⟨"XX", ⟨"N0CALL", 1, false⟩, fun s => s = "N0CALL", fun _ => false, Preempt.trace,
        "", none, fun _ => false⟩
      ⟨⟨"B", 0, false⟩, ⟨"A", 0, false⟩,
        [⟨"FOO", 0, false⟩, ⟨"USED", 0, true⟩, ⟨"N0CALL", 0, false⟩], []⟩ =
      some ⟨⟨"B", 0, false⟩, ⟨"A", 0, false⟩,
        [⟨"FOO", 0, false⟩, ⟨"USED", 0, true⟩, ⟨"N0CALL", 1, true⟩], []⟩ ∧
    (⟨⟨"B", 0, false⟩, ⟨"A", 0, false⟩,
        [⟨"FOO", 0, false⟩, ⟨"USED", 0, true⟩, ⟨"N0CALL", 1, true⟩], []⟩ : Packet) ≠
      ⟨⟨"B", 0, false⟩, ⟨"A", 0, false⟩,
        [⟨"USED", 0, true⟩, ⟨"N0CALL", 1, true⟩], []⟩ := by
  decide

/-- C5 (amended): with `preempt=TRACE`, when the scan hits position `r2`
(the first address after the pivot equal to `mycall_rec` or matching the
alias pattern), the returned copy has `mycall_xmit` with H = 1 at the hit
and has removed exactly the contiguous block of unused repeaters
immediately before the hit; when the repeaters before the hit are an
all-used prefix followed by an all-unused block — the well-formed AX.25
layout — this equals removing all prior unused repeaters and keeping every
used one, with the addresses after the hit preserved. -/
theorem claim_C5_amended (env : DigiEnv) (pp : Packet) (r r2 : Nat)
    (hf : passFilter env pp = true)
    (hr : ax25_get_first_not_repeated pp = some r)
    (hme : ax25_get_addr_with_ssid pp r ≠ env.mycall_rec)
    (hsrc : ax25_get_addr_with_ssid pp 1 ≠ env.mycall_rec)
    (hdd : env.dedupe_check pp = false)
    (hal : env.aliasP (ax25_get_addr_with_ssid pp r) = false)
    (hpt : env.preempt = Preempt.trace)
    (hscan : preemptScan env pp (r + 1) = some r2) :
    digipeat_match env pp = some (preemptBuild env pp r2) ∧
    ∀ u v a t, pp.repeaters = u ++ v ++ a :: t → u.length + v.length = r2 - 2 →
      (∀ x ∈ u, x.h = true) → (∀ x ∈ v, x.h = false) →
      (preemptBuild env pp r2).repeaters =
        u ++ ⟨env.mycall_xmit.base, env.mycall_xmit.ssid, true⟩ :: t := by
  have hstage : preemptStage env pp r = some r2 := by
    rw [preemptStage, if_pos (by rw [hpt]; exact fun hcon => absurd hcon (by decide))]
    exact hscan
  constructor
  · simp [digipeat_match, digipeat_matchS, hf, hr, hme, hsrc, hdd, hal, hstage]
  · intro u v a t hdecomp hlen hu hv
    have hge : r + 1 ≤ r2 := preemptScan_ge env pp (r + 1) r2 hscan
    obtain ⟨hge2, -⟩ := first_not_repeated_decomp pp r hr
    have hdecomp1 : pp.repeaters = (u ++ v) ++ a :: t := by
      simp [hdecomp]
    rw [preemptBuild, hpt]
    simp only [ax25_dup]
    rw [show r2 = 2 + (u ++ v).length by simp only [List.length_append]; omega]
    rw [ax25_set_addr_at_len pp (u ++ v) a t env.mycall_xmit hdecomp1]
    rw [ax25_set_h_at_len _ (u ++ v)
      { a with base := env.mycall_xmit.base, ssid := env.mycall_xmit.ssid } t rfl]
    rw [show 2 + (u ++ v).length = 2 + u.length + v.length by
        simp only [List.length_append]
        omega]
    rw [traceLoop_removes v _ u
      (⟨env.mycall_xmit.base, env.mycall_xmit.ssid, true⟩ :: t) (by simp) hv hu]

/-- C5 witness: the amended theorem at the spec's example
`A>B,FOO,BAR,N0CALL,WIDE1-1:hi` with `preempt=TRACE` and alias `N0CALL`,
yielding path `N0CALL-1*,WIDE1-1`. -/
theorem claim_C5_witness :
    digipeat_match
      ⟨"N0CALL-1", ⟨"N0CALL", 1, false⟩, fun s => s = "N0CALL", fun _ => false,
        Preempt.trace, "", none, fun _ => false⟩
      ⟨⟨"B", 0, false⟩, ⟨"A", 0, false⟩,
        [⟨"FOO", 0, false⟩, ⟨"BAR", 0, false⟩, ⟨"N0CALL", 0, false⟩, ⟨"WIDE1", 1, false⟩],
        [104, 105]⟩ =
      some (preemptBuild
        ⟨"N0CALL-1", ⟨"N0CALL", 1, false⟩, fun s => s = "N0CALL", fun _ => false,
          Preempt.trace, "", none, fun _ => false⟩
        ⟨⟨"B", 0, false⟩, ⟨"A", 0, false⟩,
          [⟨"FOO", 0, false⟩, ⟨"BAR", 0, false⟩, ⟨"N0CALL", 0, false⟩, ⟨"WIDE1", 1, false⟩],
          [104, 105]⟩ 4) ∧
    (preemptBuild
        ⟨"N0CALL-1", ⟨"N0CALL", 1, false⟩, fun s => s = "N0CALL", fun _ => false,
          Preempt.trace, "", none, fun _ => false⟩
        ⟨⟨"B", 0, false⟩, ⟨"A", 0, false⟩,
          [⟨"FOO", 0, false⟩, ⟨"BAR", 0, false⟩, ⟨"N0CALL", 0, false⟩, ⟨"WIDE1", 1, false⟩],
          [104, 105]⟩ 4).repeaters =
      [] ++ ⟨"N0CALL", 1, true⟩ :: [⟨"WIDE1", 1, false⟩] :=
  ⟨(claim_C5_amended _ _ 2 4 (by decide) (by decide) (by decide) (by decide) (by decide)
      (by decide) (by decide) (by decide)).1,
   (claim_C5_amended _ _ 2 4 (by decide) (by decide) (by decide) (by decide) (by decide)
      (by decide) (by decide) (by decide)).2
     [] [⟨"FOO", 0, false⟩, ⟨"BAR", 0, false⟩] ⟨"N0CALL", 0, false⟩ [⟨"WIDE1", 1, false⟩]
     (by decide) (by decide) (by decide) (by decide)⟩

/-- Setting the SSID of the first repeater. -/
theorem ax25_set_ssid_head (p : Packet) (a : Addr) (t : List Addr) (v : Nat)
    (hrep : p.repeaters = a :: t) :
    ax25_set_ssid p 2 v = { p with repeaters := ⟨a.base, v, a.h⟩ :: t } := by
  rw [ax25_set_ssid, hrep]
  rfl

/-- Setting the H bit of the first repeater. -/
theorem ax25_set_h_head (p : Packet) (a : Addr) (t : List Addr)
    (hrep : p.repeaters = a :: t) :
    ax25_set_h p 2 = { p with repeaters := ⟨a.base, a.ssid, true⟩ :: t } := by
  rw [ax25_set_h, hrep]
  rfl

/-- Inserting at REPEATER_1 when there is room. -/
theorem ax25_insert_head (p : Packet) (c : Addr) (hroom : p.repeaters.length < 8) :
    ax25_insert_addr p 2 c =
      { p with repeaters := ⟨c.base, c.ssid, false⟩ :: p.repeaters } := by
  rw [ax25_insert_addr, if_pos hroom]
  simp [insIdx]

/-! ### Claim C6: the ATGP special case -/

/-- C6 counterexample: when the decremented SSID reaches 0 the code SETS
the H bit (`if (ssid == 0) ax25_set_h` at digipeater.c:554-556); the claim
says it is cleared.  For `HOP7-1` the result carries `HOP7-0` with H = 1,
not H = 0. -/
theorem claim_C6_counterexample :
    digipeat_match
      ⟨"MYCALL", ⟨"DIGI", 0, false⟩, fun _ => false, fun s => s = "HOP7-1", Preempt.off,
        "HOP", none, fun _ => false⟩
      ⟨⟨"B", 0, false⟩, ⟨"A", 0, false⟩, [⟨"HOP7", 1, false⟩], []⟩ =
      some ⟨⟨"B", 0, false⟩, ⟨"A", 0, false⟩,
        [⟨"DIGI", 0, true⟩, ⟨"HOP7", 0, true⟩], []⟩ ∧
    (⟨⟨"B", 0, false⟩, ⟨"A", 0, false⟩,
        [⟨"DIGI", 0, true⟩, ⟨"HOP7", 0, true⟩], []⟩ : Packet) ≠
      ⟨⟨"B", 0, false⟩, ⟨"A", 0, false⟩,
        [⟨"DIGI", 0, true⟩, ⟨"HOP7", 0, false⟩], []⟩ := by
  decide

/-- C6 (amended): when the earlier stages (filter, explicit-my-call,
source-guard, dedupe, alias, pre-empt) pass, the first unused repeater
matches the wide pattern, starts with the non-empty `atgp` prefix
(case-insensitively) and has SSID `n ∈ [1,7]`, `digipeat_match` returns the
ATGP copy: all leading already-used repeaters are removed, the matched
address's SSID becomes `n-1` with its H bit SET (not cleared) when the SSID
reaches 0, and — provided the stripped list has room — `mycall_xmit` is
inserted at REPEATER_1 with H = 1. -/
theorem claim_C6_amended (env : DigiEnv) (pp : Packet) (r n : Nat)
    (hf : passFilter env pp = true)
    (hr : ax25_get_first_not_repeated pp = some r)
    (hme : ax25_get_addr_with_ssid pp r ≠ env.mycall_rec)
    (hsrc : ax25_get_addr_with_ssid pp 1 ≠ env.mycall_rec)
    (hdd : env.dedupe_check pp = false)
    (hal : env.aliasP (ax25_get_addr_with_ssid pp r) = false)
    (hpre : preemptStage env pp r = none)
    (hwide : env.wideP (ax25_get_addr_with_ssid pp r) = true)
    (hag1 : 0 < env.atgp.length)
    (hag2 : atgpMatches env.atgp (ax25_get_addr_with_ssid pp r) = true)
    (hn : ax25_get_ssid pp r = n) (hn1 : 1 ≤ n) (hn7 : n ≤ 7) :
    digipeat_match env pp = some (atgpBuild env pp r n) ∧
    ∀ u a t, pp.repeaters = u ++ a :: t → u.length = r - 2 → t.length + 1 < 8 →
      (atgpBuild env pp r n).repeaters =
        ⟨env.mycall_xmit.base, env.mycall_xmit.ssid, true⟩ ::
          ⟨a.base, n - 1, if n = 1 then true else false⟩ :: t := by
  have hcond : 0 < env.atgp.length ∧
      atgpMatches env.atgp (ax25_get_addr_with_ssid pp r) = true ∧ 1 ≤ n ∧ n ≤ 7 :=
    ⟨hag1, hag2, hn1, hn7⟩
  constructor
  · simp [digipeat_match, digipeat_matchS, hf, hr, hme, hsrc, hdd, hal, hpre, hwide, hn,
      hcond, hag1, hag2, hn1, hn7]
  · intro u a t hdecomp hlen hroom
    obtain ⟨hge2, u', a', t', hl', hlen', hu', ha'⟩ := first_not_repeated_decomp pp r hr
    obtain ⟨hueq, heq2⟩ : u = u' ∧ a :: t = a' :: t' :=
      List.append_inj (hdecomp.symm.trans hl') (by omega)
    have hah : a.h = false := by
      have ha_eq : a = a' := by injection heq2
      rw [ha_eq]
      exact ha'
    have huh : ∀ x ∈ u, x.h = true := by
      rw [hueq]
      exact hu'
    have hreq : r = 2 + u.length := by omega
    subst hreq
    simp only [atgpBuild, ax25_dup, atgpStrip]
    rw [atgpStripAux_used u pp.repeaters.length pp a t (2 + u.length) hdecomp huh hah
      (by rw [hdecomp]; simp only [List.length_append, List.length_cons]; omega)]
    simp only
    rw [show 2 + u.length - u.length = 2 by omega]
    by_cases hne : n = 1
    · subst hne
      rw [if_pos (show (1 : Nat) - 1 = 0 from rfl)]
      simp [ax25_set_ssid, ax25_set_h, ax25_insert_addr, modifyIdx, insIdx, hroom]
    · rw [if_neg (show ¬ n - 1 = 0 by omega)]
      simp [ax25_set_ssid, ax25_set_h, ax25_insert_addr, modifyIdx, insIdx, hroom, hah, hne]

/-- C6 witness: the amended theorem at repeater list `USED*, HOP7-2` with
`atgp = HOP`: the used leading repeater is stripped, `HOP7` drops to SSID 1
(H stays 0), and `DIGI` is inserted at REPEATER_1 with H = 1. -/
theorem claim_C6_witness :
    digipeat_match
      ⟨"MYCALL", ⟨"DIGI", 0, false⟩, fun _ => false, fun s => s = "HOP7-2", Preempt.off,
        "HOP", none, fun _ => false⟩
      ⟨⟨"B", 0, false⟩, ⟨"A", 0, false⟩,
        [⟨"USED", 0, true⟩, ⟨"HOP7", 2, false⟩], []⟩ =
      some (atgpBuild
        ⟨"MYCALL", ⟨"DIGI", 0, false⟩, fun _ => false, fun s => s = "HOP7-2", Preempt.off,
          "HOP", none, fun _ => false⟩
        ⟨⟨"B", 0, false⟩, ⟨"A", 0, false⟩,
          [⟨"USED", 0, true⟩, ⟨"HOP7", 2, false⟩], []⟩ 3 2) ∧
    (atgpBuild
        ⟨"MYCALL", ⟨"DIGI", 0, false⟩, fun _ => false, fun s => s = "HOP7-2", Preempt.off,
          "HOP", none, fun _ => false⟩
        ⟨⟨"B", 0, false⟩, ⟨"A", 0, false⟩,
          [⟨"USED", 0, true⟩, ⟨"HOP7", 2, false⟩], []⟩ 3 2).repeaters =
      ⟨"DIGI", 0, true⟩ :: ⟨"HOP7", 1, if (2 : Nat) = 1 then true else false⟩ :: [] :=
  ⟨(claim_C6_amended _ _ 3 2 (by decide) (by decide) (by decide) (by decide) (by decide)
      (by decide) (by decide) (by decide) (by decide) (by decide) (by decide) (by decide)
      (by decide)).1,
   (claim_C6_amended _ _ 3 2 (by decide) (by decide) (by decide) (by decide) (by decide)
      (by decide) (by decide) (by decide) (by decide) (by decide) (by decide) (by decide)
      (by decide)).2
     [⟨"USED", 0, true⟩] ⟨"HOP7", 2, false⟩ [] (by decide) (by decide) (by decide)⟩

end Samoyed